import Mathlib

/-!
Verification of the event-orchestration core of the backtesting engine:
the simulated broker worker (`simBrokerWorker` in broker.go), and the
strategy runtime (`BasicStrategy`).  Go code is shallowly embedded:
`time.Time` becomes a count of nanoseconds (`Int`), Go `float64` prices
become `GoFloat` (a rational together with a NaN flag, with Go's
comparison semantics where every comparison against NaN is false), maps
become association lists, and functions that `panic` return
`Except String _` with `.error` marking the panic.
-/

namespace Engine

/-- Simulated time: nanoseconds since the epoch, in the instrument's
timezone (Go `time.Time`). -/
abbrev Time := Int

/-- Nanoseconds per millisecond (broker latency `delay` is in ms). -/
def nsPerMs : Int := 1000000

/-- Nanoseconds per second. -/
def nsPerSec : Int := 1000000000

/-- Nanoseconds per calendar day. -/
def nsPerDay : Int := 86400000000000

/-- Go `time.Time.Unix()`: whole seconds since the epoch (floor). -/
def secOf (t : Time) : Int := t.fdiv nsPerSec

/-- Go `float64` as used for prices: either NaN or an exact rational.
Go comparison operators return false whenever either side is NaN. -/
structure GoFloat where
  isNaN : Bool
  val : ℚ
deriving DecidableEq

/-- Go `a < b` on float64. -/
def GoFloat.flt (a b : GoFloat) : Bool :=
  !a.isNaN && !b.isNaN && decide (a.val < b.val)

/-- Go `a == b` on float64 (NaN == anything is false). -/
def GoFloat.feq (a b : GoFloat) : Bool :=
  !a.isNaN && !b.isNaN && decide (a.val = b.val)

/-- Go `a <= b` on float64. -/
def GoFloat.fle (a b : GoFloat) : Bool :=
  !a.isNaN && !b.isNaN && decide (a.val ≤ b.val)

/-- An ordinary (non-NaN) float value. -/
def GoFloat.num (q : ℚ) : GoFloat := ⟨false, q⟩

/-- `math.NaN()`. -/
def GoFloat.nan : GoFloat := ⟨true, 0⟩

inductive OrderSide where
  | OrderBuy
  | OrderSell
deriving DecidableEq

inductive OrderType where
  | MarketOrder
  | LimitOrder
  | StopOrder
  | LimitOnClose
  | LimitOnOpen
  | MarketOnOpen
  | MarketOnClose
deriving DecidableEq

inductive OrderState where
  | NewOrder
  | ConfirmedOrder
  | PartialFilledOrder
  | FilledOrder
  | CanceledOrder
  | RejectedOrder
deriving DecidableEq

inductive OrderTIF where
  | GTCTIF
  | DayTIF
  | AuctionTIF
deriving DecidableEq

open OrderSide OrderType OrderState OrderTIF

/-- Exchange auction schedule of an instrument, as nanoseconds into the
trading day (Go `Exchange.MarketOpenTime` / `MarketCloseTime`, which are
wall-clock hour/minute/second values). -/
structure Exchange where
  marketOpenTimeNs : Int
  marketCloseTimeNs : Int
deriving DecidableEq

/-- The instrument (`Instrument` / `o.Ticker`); the worker is
per-symbol, so the symbol string itself is not modelled. -/
structure Instrument where
  exchange : Exchange
deriving DecidableEq

/-- The strategy-side order (`Order`), restricted to the fields the
broker worker and the strategy runtime read. -/
structure Order where
  Id : String
  side : OrderSide
  Qty : Int
  Price : GoFloat
  typ : OrderType
  Tif : OrderTIF
  Time : Time
  Ticker : Instrument
deriving DecidableEq

/-- Whether an order type carries a meaningful price. -/
def OrderType.priceBearing : OrderType → Bool
  | LimitOrder | StopOrder | LimitOnOpen | LimitOnClose => true
  | _ => false

/-- Whether an order type is an auction (open/close) type. -/
def OrderType.isAuction : OrderType → Bool
  | LimitOnOpen | LimitOnClose | MarketOnOpen | MarketOnClose => true
  | _ => false

/-- Modelled from the spec: the method `Order.isValid` is declared in a
source file absent from `src/` (only its callers appear there).  Spec §3
Order invariants: "quantity > 0; executed quantity ≤ quantity; price
finite and positive for price-bearing types; Auction TIF is valid only
with Open/Close order types."  Executed-quantity bookkeeping lives on
the broker-side wrapper (`BrokerExecQty`), not on `Order`, so the second
invariant has no field to constrain here. -/
def Order.isValid (o : Order) : Bool :=
  decide (0 < o.Qty) &&
  (!o.typ.priceBearing || (!o.Price.isNaN && decide (0 < o.Price.val))) &&
  (!(o.Tif = AuctionTIF : Bool) || o.typ.isAuction)

/-- Broker-side order wrapper (`simBrokerOrder`). -/
structure SimBrokerOrder where
  order : Order
  BrokerState : OrderState
  StateUpdTime : Time
  BrokerExecQty : Int
  BrokerPrice : GoFloat
deriving DecidableEq

/-- `simBrokerOrder.getExpirationTime`.  GTC adds ten calendar years
(`AddDate(10, 0, 0)`), modelled on the nanosecond timeline as 3653 days;
no claim depends on the GTC value.  Day expires at midnight of the day
after submission (`AddDate(0, 0, 1)` then truncation to midnight, i.e.
the start of the next calendar day).  Auction windows are 3 minutes
after market open for on-open types and 3 seconds after market close
for on-close types; the Go code panics on an auction TIF with a
non-auction type, modelled as 0 (never reached by any claim). -/
def SimBrokerOrder.getExpirationTime (o : SimBrokerOrder) : Time :=
  match o.order.Tif with
  | GTCTIF => o.order.Time + 3653 * nsPerDay
  | DayTIF => (Int.fdiv o.order.Time nsPerDay + 1) * nsPerDay
  | AuctionTIF =>
    let dayStart := Int.fdiv o.order.Time nsPerDay * nsPerDay
    if o.order.typ = MarketOnOpen ∨ o.order.typ = LimitOnOpen then
      dayStart + o.order.Ticker.exchange.marketOpenTimeNs + 3 * 60 * nsPerSec
    else if o.order.typ = MarketOnClose ∨ o.order.typ = LimitOnClose then
      dayStart + o.order.Ticker.exchange.marketCloseTimeNs + 3 * nsPerSec
    else 0

/-- `simBrokerOrder.isExpired`: `t.After(expiration)` (strict). -/
def SimBrokerOrder.isExpired (o : SimBrokerOrder) (t : Time) : Bool :=
  decide (o.getExpirationTime < t)

/-- `simBrokerOrder.isActive`. -/
def SimBrokerOrder.isActive (o : SimBrokerOrder) : Bool :=
  o.BrokerState = ConfirmedOrder || o.BrokerState = PartialFilledOrder

/-- The engine `Tick`, restricted to the fields the worker reads.  The
trade/quote optionality is carried by two flags, as in the
`marketdata.Tick` struct. -/
structure Tick where
  Datetime : Time
  LastPrice : GoFloat
  LastSize : Int
  BidPrice : GoFloat
  AskPrice : GoFloat
  BidSize : Int
  AskSize : Int
  hasTradeFlag : Bool
  hasQuoteFlag : Bool
  IsOpening : Bool
  IsClosing : Bool
deriving DecidableEq

def Tick.HasTrade (t : Tick) : Bool := t.hasTradeFlag

def Tick.HasQuote (t : Tick) : Bool := t.hasQuoteFlag

/-- Modelled from the spec: the method `Tick.IsValid` is declared in a
source file absent from `src/`.  Spec §3: "Validity: must have a trade
OR quote; numeric fields finite and non-zero."  The numeric checks
mirror `SimulatedBroker.tickIsValid` in broker.go, which implements the
same rule for the legacy broker. -/
def Tick.IsValid (t : Tick) : Bool :=
  (t.HasTrade || t.HasQuote) &&
  (!t.HasQuote ||
    (!t.BidPrice.isNaN && !t.AskPrice.isNaN &&
      !(decide (t.BidPrice.val = 0)) && !(decide (t.AskPrice.val = 0)))) &&
  (!t.HasTrade ||
    (!t.LastPrice.isNaN && !(decide (t.LastPrice.val = 0)) &&
      !(decide (t.LastSize = 0))))

/-- The engine `Candle`, restricted to the fields the claims read. -/
structure Candle where
  Datetime : Time
  Open : GoFloat
  High : GoFloat
  Low : GoFloat
  Close : GoFloat
deriving DecidableEq

/-- Modelled from the spec: the method `Candle.isValid` is declared in a
source file absent from `src/`.  Spec §3 Candle invariant:
"low ≤ open ≤ high, low ≤ close ≤ high" (NaN fields fail every
comparison, hence make the candle invalid). -/
def Candle.isValid (c : Candle) : Bool :=
  c.Low.fle c.Open && c.Open.fle c.High && c.Low.fle c.Close && c.Close.fle c.High

/-- The event union (`event`), restricted to the variants the worker and
the strategy runtime exchange.  Each variant carries its `BaseEvent`
timestamp. -/
inductive Ev where
  | OrderConfirmationEvent (OrdId : String) (time : Time)
  | OrderRejectedEvent (OrdId : String) (Reason : String) (time : Time)
  | OrderCancelEvent (OrdId : String) (time : Time)
  | OrderCancelRejectEvent (OrdId : String) (Reason : String) (time : Time)
  | OrderReplacedEvent (OrdId : String) (NewPrice : GoFloat) (time : Time)
  | OrderReplaceRejectEvent (OrdId : String) (Reason : String) (time : Time)
  | OrderFillEvent (OrdId : String) (Price : GoFloat) (Qty : Int) (time : Time)
  | NewOrderEvent (LinkedOrder : Order) (time : Time)
  | OrderCancelRequestEvent (OrdId : String) (time : Time)
  | OrderReplaceRequestEvent (OrdId : String) (NewPrice : GoFloat) (time : Time)
  | NewTickEvent (Tick : Tick)
deriving DecidableEq

/-- `event.getTime()`. -/
def Ev.getTime : Ev → Time
  | .OrderConfirmationEvent _ t => t
  | .OrderRejectedEvent _ _ t => t
  | .OrderCancelEvent _ t => t
  | .OrderCancelRejectEvent _ _ t => t
  | .OrderReplacedEvent _ _ t => t
  | .OrderReplaceRejectEvent _ _ t => t
  | .OrderFillEvent _ _ _ t => t
  | .NewOrderEvent _ t => t
  | .OrderCancelRequestEvent _ t => t
  | .OrderReplaceRequestEvent _ _ t => t
  | .NewTickEvent tk => tk.Datetime

/-- The comparison used by every `sort.SliceStable` call in the engine:
non-decreasing `Datetime.Unix()` / `getTime().Unix()`, i.e. whole
seconds only.  A stable sort with respect to the strict second order is
exactly `List.insertionSort` with the non-strict key order (the unique
permutation that is non-decreasing on the key and preserves the
original order of key-ties). -/
def secLe {α : Type} (f : α → Time) (a b : α) : Prop :=
  secOf (f a) ≤ secOf (f b)

instance {α : Type} (f : α → Time) : DecidableRel (secLe f) :=
  fun a b => inferInstanceAs (Decidable (secOf (f a) ≤ secOf (f b)))

instance {α : Type} (f : α → Time) : IsTotal α (secLe f) :=
  ⟨fun a b => Int.le_total (secOf (f a)) (secOf (f b))⟩

instance {α : Type} (f : α → Time) : IsTrans α (secLe f) :=
  ⟨fun _ _ _ h h2 => le_trans h h2⟩

/-- `eventArray.sort`: stable sort by `getTime().Unix()`. -/
def sortEvents (l : List Ev) : List Ev :=
  List.insertionSort (secLe Ev.getTime) l

/-! ### The simulated broker worker (`simBrokerWorker`) -/

/-- The Go `map[string]*simBrokerOrder` as an association list with
unique keys (insertion replaces). -/
def lookupOrd (orders : List (String × SimBrokerOrder)) (id : String) :
    Option SimBrokerOrder :=
  (orders.find? (fun p => p.1 = id)).map (·.2)

def insertOrd (orders : List (String × SimBrokerOrder)) (id : String)
    (o : SimBrokerOrder) : List (String × SimBrokerOrder) :=
  (id, o) :: orders.filter (fun p => ¬(p.1 = id))

def updateOrd (orders : List (String × SimBrokerOrder)) (id : String)
    (f : SimBrokerOrder → SimBrokerOrder) : List (String × SimBrokerOrder) :=
  orders.map (fun p => if p.1 = id then (p.1, f p.2) else p)

/-- Mutable state of one `simBrokerWorker` (the channels and the mutex
are not part of the embedded state). -/
structure WorkerState where
  delay : Int
  strictLimitOrders : Bool
  orders : List (String × SimBrokerOrder)
  generatedEvents : List Ev
  requestEvents : List Ev
deriving DecidableEq

/-- `genTimeRoundTrip`: base time plus `2 × delay` milliseconds. -/
def WorkerState.genTimeRoundTrip (w : WorkerState) (baseTime : Time) : Time :=
  baseTime + w.delay * 2 * nsPerMs

/-- `genTimeSingleTrip`: base time plus `delay` milliseconds. -/
def WorkerState.genTimeSingleTrip (w : WorkerState) (baseTime : Time) : Time :=
  baseTime + w.delay * nsPerMs

/-- `simBrokerWorker.validateOrderForExecution` (broker.go 858-898).
Returns `some reason` when the order cannot be executed. -/
def validateOrderForExecution (order : SimBrokerOrder) (expectedType : OrderType) :
    Option String :=
  if ¬(order.order.isValid = true) then some "ErrInvalidOrder"
  else if ¬(order.order.typ = expectedType) then some "ErrUnexpectedOrderType"
  else if ¬(order.BrokerState = ConfirmedOrder) ∧
          ¬(order.BrokerState = PartialFilledOrder) then
    some "ErrUnexpectedOrderState"
  else if order.order.Qty - order.BrokerExecQty ≤ 0 then
    some "Sim broker: Lvs qty is zero or less. Nothing to execute. "
  else none

/-- `simBrokerWorker.addBrokerEvent` (broker.go 900-971): updates the
order map according to the event and appends the event to the pending
`generatedEvents` buffer.  The Go function panics when a confirmation,
cancel, replace or fill refers to an order id that is not in the map
(and on an over-large fill); a panic is modelled as `.error`. -/
def WorkerState.addBrokerEvent (w : WorkerState) (e : Ev) :
    Except String WorkerState :=
  match e with
  | .OrderConfirmationEvent ordId t =>
    match lookupOrd w.orders ordId with
    | none => .error "Confirmation of not existing order"
    | some _ =>
      .ok { w with
        orders := updateOrd w.orders ordId
          (fun o => { o with BrokerState := ConfirmedOrder, StateUpdTime := t }),
        generatedEvents := w.generatedEvents ++ [e] }
  | .OrderCancelRejectEvent _ _ _ =>
    .ok { w with generatedEvents := w.generatedEvents ++ [e] }
  | .OrderReplaceRejectEvent _ _ _ =>
    .ok { w with generatedEvents := w.generatedEvents ++ [e] }
  | .OrderCancelEvent ordId t =>
    match lookupOrd w.orders ordId with
    | none => .error "Can't find order in confirmed map to cancel it. "
    | some _ =>
      .ok { w with
        orders := updateOrd w.orders ordId
          (fun o => { o with BrokerState := CanceledOrder, StateUpdTime := t }),
        generatedEvents := w.generatedEvents ++ [e] }
  | .OrderReplacedEvent ordId newPrice t =>
    match lookupOrd w.orders ordId with
    | none => .error "Can't find order in confirmed map to replace it. "
    | some _ =>
      .ok { w with
        orders := updateOrd w.orders ordId
          (fun o => { o with StateUpdTime := t, BrokerPrice := newPrice }),
        generatedEvents := w.generatedEvents ++ [e] }
  | .OrderFillEvent ordId _ qty _ =>
    match lookupOrd w.orders ordId with
    | none => .error "Can't find order in confirmed map to fill it. "
    | some ord =>
      if qty = ord.order.Qty - ord.BrokerExecQty then
        .ok { w with
          orders := updateOrd w.orders ordId
            (fun o => { o with BrokerState := FilledOrder,
                               BrokerExecQty := o.BrokerExecQty + qty }),
          generatedEvents := w.generatedEvents ++ [e] }
      else if ord.order.Qty - ord.BrokerExecQty < qty then .error "Large qty"
      else
        .ok { w with
          orders := updateOrd w.orders ordId
            (fun o => { o with BrokerState := PartialFilledOrder,
                               BrokerExecQty := o.BrokerExecQty + qty }),
          generatedEvents := w.generatedEvents ++ [e] }
  | .OrderRejectedEvent ordId _ t =>
    match lookupOrd w.orders ordId with
    | none => .error "Confirmation of not existing order"
    | some _ =>
      .ok { w with
        orders := updateOrd w.orders ordId
          (fun o =>
            { o with
              BrokerState :=
                if ¬(o.BrokerState = ConfirmedOrder) then RejectedOrder
                else o.BrokerState,
              StateUpdTime := t }),
        generatedEvents := w.generatedEvents ++ [e] }
  | _ => .ok { w with generatedEvents := w.generatedEvents ++ [e] }

/-- `simBrokerWorker.onNewOrder` (broker.go 991-1039), applied to a
stored `NewOrderEvent` carrying `ord` with event time `evTime`. -/
def WorkerState.onNewOrder (w : WorkerState) (ord : Order) (evTime : Time) :
    Except String WorkerState :=
  if ¬(ord.isValid = true) then
    let rejectEvent := Ev.OrderRejectedEvent ord.Id
      "Sim Broker: can't confirm order. Order is not valid"
      (w.genTimeRoundTrip evTime)
    let w := { w with
      orders := insertOrd w.orders ord.Id
        { order := ord, BrokerState := RejectedOrder, BrokerExecQty := 0,
          BrokerPrice := GoFloat.num 0, StateUpdTime := rejectEvent.getTime } }
    w.addBrokerEvent rejectEvent
  else if (lookupOrd w.orders ord.Id).isSome then
    let rejectEvent := Ev.OrderRejectedEvent ord.Id
      "Sim Broker: can't confirm order. Order with this ID already exists on broker side"
      (w.genTimeRoundTrip evTime)
    w.addBrokerEvent rejectEvent
  else
    let confEvent := Ev.OrderConfirmationEvent ord.Id (w.genTimeRoundTrip evTime)
    let w := { w with
      orders := insertOrd w.orders ord.Id
        { order := ord, BrokerState := NewOrder, BrokerExecQty := 0,
          BrokerPrice := ord.Price, StateUpdTime := confEvent.getTime } }
    w.addBrokerEvent confEvent

/-- `simBrokerWorker.proceedStoredRequests` (broker.go 1210-1234):
sorts the stored requests by submission time (`Unix()` seconds, stable),
then splits them into the requests that are dispatched on this
market-data arrival — those whose single-trip visibility time is
strictly before `beforeTime`, handled in the sorted order — and the
requests that stay buffered.  The first component is the dispatch list
in dispatch order, the second the new `requestEvents` buffer. -/
def WorkerState.proceedStoredRequests (w : WorkerState) (beforeTime : Time) :
    List Ev × List Ev :=
  if w.requestEvents.isEmpty then ([], w.requestEvents)
  else
    let s := sortEvents w.requestEvents
    (s.filter (fun e => decide (w.genTimeSingleTrip e.getTime < beforeTime)),
     s.filter (fun e => !decide (w.genTimeSingleTrip e.getTime < beforeTime)))

/-- `simBrokerWorker.cancelByTif` (broker.go 1197-1208): when the order
is expired at market-data time `t`, the emitted `OrderCancelEvent`
carries the expiration instant itself as its timestamp. -/
def cancelByTif (o : SimBrokerOrder) (t : Time) : Option Ev :=
  if o.isExpired t then some (.OrderCancelEvent o.order.Id o.getExpirationTime)
  else none

/-! ### Tick-mode executors (broker.go 1763-2159).  Validation failures
are reported on the error channel and produce no event; the embedding
keeps only the produced events. -/

/-- The tail of `fillOnTickLimitAuction` (broker.go 1828-1864) after
the side-specific cancel checks: strict-limit cancel on price equality,
else a fill capped by the tick size with a trailing cancel when the
fill is partial. -/
def WorkerState.fillOnTickLimitAuctionTail (w : WorkerState)
    (order : SimBrokerOrder) (tick : Tick) : List Ev :=
  if tick.LastPrice.feq order.BrokerPrice ∧ w.strictLimitOrders then
    [.OrderCancelEvent order.order.Id (w.genTimeRoundTrip tick.Datetime)]
  else
    let execQty := if tick.LastSize < order.order.Qty then tick.LastSize
                   else order.order.Qty
    let fillE := Ev.OrderFillEvent order.order.Id tick.LastPrice execQty
      (w.genTimeRoundTrip tick.Datetime)
    if execQty < order.order.Qty then
      [fillE, .OrderCancelEvent order.order.Id (w.genTimeRoundTrip tick.Datetime)]
    else [fillE]

/-- `fillOnTickLimitAuction` (broker.go 1794-1865). -/
def WorkerState.fillOnTickLimitAuction (w : WorkerState) (order : SimBrokerOrder)
    (tick : Tick) : List Ev :=
  match order.order.side with
  | OrderSell =>
    if tick.LastPrice.flt order.BrokerPrice then
      [.OrderCancelEvent order.order.Id (w.genTimeRoundTrip tick.Datetime)]
    else
      w.fillOnTickLimitAuctionTail order tick
  | OrderBuy =>
    if order.BrokerPrice.flt tick.LastPrice then
      [.OrderCancelEvent order.order.Id (w.genTimeRoundTrip tick.Datetime)]
    else
      w.fillOnTickLimitAuctionTail order tick

/-- `fillOnTickLOO` (broker.go 1765-1777). -/
def WorkerState.fillOnTickLOO (w : WorkerState) (order : SimBrokerOrder)
    (tick : Tick) : List Ev :=
  if (validateOrderForExecution order LimitOnOpen).isSome then []
  else if ¬(tick.IsOpening = true) then []
  else w.fillOnTickLimitAuction order tick

/-- `fillOnTickLOC` (broker.go 1779-1792). -/
def WorkerState.fillOnTickLOC (w : WorkerState) (order : SimBrokerOrder)
    (tick : Tick) : List Ev :=
  if (validateOrderForExecution order LimitOnClose).isSome then []
  else if ¬(tick.IsClosing = true) then []
  else w.fillOnTickLimitAuction order tick

/-- `fillOnTickMOO` (broker.go 1867-1891). -/
def WorkerState.fillOnTickMOO (w : WorkerState) (order : SimBrokerOrder)
    (tick : Tick) : Option Ev :=
  if ¬(tick.IsOpening = true) then none
  else if ¬(tick.HasTrade = true) then none
  else if (validateOrderForExecution order MarketOnOpen).isSome then none
  else
    some (.OrderFillEvent order.order.Id tick.LastPrice order.order.Qty
      (w.genTimeRoundTrip tick.Datetime))

/-- `fillOnTickMOC` (broker.go 1893-1918). -/
def WorkerState.fillOnTickMOC (w : WorkerState) (order : SimBrokerOrder)
    (tick : Tick) : Option Ev :=
  if ¬(tick.IsClosing = true) then none
  else if ¬(tick.HasTrade = true) then none
  else if (validateOrderForExecution order MarketOnClose).isSome then none
  else
    some (.OrderFillEvent order.order.Id tick.LastPrice order.order.Qty
      (w.genTimeRoundTrip tick.Datetime))

/-- `fillOnTickLimit` (broker.go 1920-2011). -/
def WorkerState.fillOnTickLimit (w : WorkerState) (order : SimBrokerOrder)
    (tick : Tick) : Option Ev :=
  if ¬(tick.HasTrade = true) then none
  else if (validateOrderForExecution order LimitOrder).isSome then none
  else
    let lvsQty := order.order.Qty - order.BrokerExecQty
    match order.order.side with
    | OrderSell =>
      if order.BrokerPrice.flt tick.LastPrice then
        let qty := if tick.LastSize < lvsQty then tick.LastSize else lvsQty
        some (.OrderFillEvent order.order.Id order.BrokerPrice qty
          (w.genTimeRoundTrip tick.Datetime))
      else if tick.LastPrice.feq order.BrokerPrice ∧ ¬(w.strictLimitOrders = true) then
        let qty := if tick.LastSize < lvsQty then tick.LastSize else lvsQty
        some (.OrderFillEvent order.order.Id order.BrokerPrice qty
          (w.genTimeRoundTrip tick.Datetime))
      else none
    | OrderBuy =>
      if tick.LastPrice.flt order.BrokerPrice then
        let qty := if tick.LastSize < lvsQty then tick.LastSize else lvsQty
        some (.OrderFillEvent order.order.Id order.BrokerPrice qty
          (w.genTimeRoundTrip tick.Datetime))
      else if tick.LastPrice.feq order.BrokerPrice ∧ ¬(w.strictLimitOrders = true) then
        let qty := if tick.LastSize < lvsQty then tick.LastSize else lvsQty
        some (.OrderFillEvent order.order.Id order.BrokerPrice qty
          (w.genTimeRoundTrip tick.Datetime))
      else none

/-- `fillOnTickStop` (broker.go 2013-2081). -/
def WorkerState.fillOnTickStop (w : WorkerState) (order : SimBrokerOrder)
    (tick : Tick) : Option Ev :=
  if ¬(tick.HasTrade = true) then none
  else if (validateOrderForExecution order StopOrder).isSome then none
  else
    match order.order.side with
    | OrderSell =>
      if order.BrokerPrice.flt tick.LastPrice then none
      else
        let lvsQty := order.order.Qty - order.BrokerExecQty
        let qty := if tick.HasQuote then lvsQty
                   else if tick.LastSize < lvsQty then tick.LastSize else lvsQty
        let price := if tick.HasQuote then tick.BidPrice else tick.LastPrice
        some (.OrderFillEvent order.order.Id price qty
          (w.genTimeRoundTrip tick.Datetime))
    | OrderBuy =>
      if tick.LastPrice.flt order.BrokerPrice then none
      else
        let lvsQty := order.order.Qty - order.BrokerExecQty
        let qty := if tick.HasQuote then lvsQty
                   else if tick.LastSize < lvsQty then tick.LastSize else lvsQty
        let price := if tick.HasQuote then tick.AskPrice else tick.LastPrice
        some (.OrderFillEvent order.order.Id price qty
          (w.genTimeRoundTrip tick.Datetime))

/-- `fillOnTickMarket` (broker.go 2083-2159). -/
def WorkerState.fillOnTickMarket (w : WorkerState) (order : SimBrokerOrder)
    (tick : Tick) : Option Ev :=
  if ¬(order.order.typ = MarketOrder) then none
  else if ¬(order.order.isValid = true) then none
  else if tick.HasQuote then
    let lvsQty := order.order.Qty - order.BrokerExecQty
    match order.order.side with
    | OrderBuy =>
      let qty := if tick.AskSize < lvsQty then tick.AskSize else lvsQty
      some (.OrderFillEvent order.order.Id tick.AskPrice qty
        (w.genTimeRoundTrip tick.Datetime))
    | OrderSell =>
      let qty := if tick.BidSize < lvsQty then tick.BidSize else lvsQty
      some (.OrderFillEvent order.order.Id tick.BidPrice qty
        (w.genTimeRoundTrip tick.Datetime))
  else if ¬(tick.HasTrade = true) then none
  else
    some (.OrderFillEvent order.order.Id tick.LastPrice order.order.Qty
      (w.genTimeRoundTrip tick.Datetime))

/-- `findExecutionsOnTick` (broker.go 1371-1420). -/
def WorkerState.findExecutionsOnTick (w : WorkerState) (orderSim : SimBrokerOrder)
    (tick : Tick) : List Ev :=
  if (validateOrderForExecution orderSim orderSim.order.typ).isSome then []
  else
    match orderSim.order.typ with
    | MarketOrder => (w.fillOnTickMarket orderSim tick).toList
    | LimitOrder => (w.fillOnTickLimit orderSim tick).toList
    | StopOrder => (w.fillOnTickStop orderSim tick).toList
    | LimitOnClose => w.fillOnTickLOC orderSim tick
    | LimitOnOpen => w.fillOnTickLOO orderSim tick
    | MarketOnOpen => (w.fillOnTickMOO orderSim tick).toList
    | MarketOnClose => (w.fillOnTickMOC orderSim tick).toList

/-- One order's treatment inside `findExecutions` for a `NewTickEvent`
(broker.go 1250-1265): an active order whose last state update precedes
the tick is first checked for TIF expiry — an expired order yields only
the cancel event, timestamped at the expiry instant, and is not
examined for executions — and otherwise is matched against the tick. -/
def WorkerState.tickOrderEvents (w : WorkerState) (o : SimBrokerOrder)
    (tick : Tick) : List Ev :=
  if o.isActive ∧ o.StateUpdTime < tick.Datetime then
    match cancelByTif o tick.Datetime with
    | some ce => [ce]
    | none => w.findExecutionsOnTick o tick
  else []

/-- The release step at the end of `findExecutions` (broker.go
1314-1331): the pending buffer (already containing the market-data
event and the newly generated events) is stable-sorted by
`getTime().Unix()` and split into the events released to the strategy
runtime — those whose timestamp is not after the market-data time — and
the events that stay buffered.  The first component is the released
sequence in delivery order, the second the remaining buffer. -/
def drainEvents (pending : List Ev) (mdTime : Time) : List Ev × List Ev :=
  let s := sortEvents pending
  (s.filter (fun e => !decide (mdTime < e.getTime)),
   s.filter (fun e => decide (mdTime < e.getTime)))

/-! ### The strategy runtime (`BasicStrategy`) -/

inductive TradeType where
  | FlatTrade
  | LongTrade
  | ShortTrade
  | ClosedTrade
deriving DecidableEq

open TradeType

/-- One executed fill recorded on a trade (price, quantity, time). -/
structure Fill where
  price : ℚ
  qty : Int
  time : Time
deriving DecidableEq

/-- The `Trade` of the order/trade engine, restricted to the fields the
strategy runtime reads.  `Qty` is the unsigned held quantity; the sign
of the position is carried by `typ` (the Go field `Type`). -/
structure Trade where
  typ : TradeType
  Qty : Int
  OpenPrice : ℚ
  RealizedPnL : ℚ
  ConfirmedOrders : List (String × Order)
  CanceledOrders : List (String × Order)
  Fills : List Fill
deriving DecidableEq

/-- `Trade.hasConfirmedOrderWithId`: membership in the confirmed-orders
map (the map is keyed by order id, spec §3). -/
def Trade.hasConfirmedOrderWithId (t : Trade) (ordId : String) : Bool :=
  (t.ConfirmedOrders.find? (fun p => p.1 = ordId)).isSome

/-- Modelled from the spec: `Trade.cancelOrder` lives in a trade-engine
source file absent from `src/` (only its caller `onOrderCancelHandler`
appears).  Spec §4.1: "cancels/rejects (move order to terminal set)";
§4.1 failure semantics: an event for an order the trade does not know
is an error and mutates nothing. -/
def Trade.cancelOrder (t : Trade) (ordId : String) : Except String Trade :=
  match t.ConfirmedOrders.find? (fun p => p.1 = ordId) with
  | none => .error "Can't cancel order. Order not found in confirmed map"
  | some p =>
    .ok { t with
      ConfirmedOrders := t.ConfirmedOrders.filter (fun q => ¬(q.1 = ordId)),
      CanceledOrders := (ordId, p.2) :: t.CanceledOrders }

/-- Sign of an order side. -/
def OrderSide.sign : OrderSide → Int
  | OrderBuy => 1
  | OrderSell => -1

/-- Sign of a trade type (0 when no position is held). -/
def TradeType.sign : TradeType → Int
  | LongTrade => 1
  | ShortTrade => -1
  | _ => 0

/-- Modelled from the spec: `Trade.executeOrder` lives in a trade-engine
source file absent from `src/` (only its caller `onOrderFillHandler`
appears).  Spec §4.1: on each fill (a) the order must belong to this
trade; (b) signed delta = side × qty; (c) new position = current +
delta.  Same sign or flat: quantity-weighted average open price, fill
appended.  Opposite sign: the offsetting portion realizes
`(fill − avg_open) × closed_qty × sign`; if the fill exceeds the
position, the trade is finalized as Closed and a second value — the new
trade carrying the residual (Flat when the position closes exactly,
opposite side otherwise) — is returned.  §4.1 failure semantics: fill
on an unknown order, fill after the trade closed, non-positive
quantity, and NaN or non-positive price are errors that mutate
nothing.  The per-order executed-quantity bookkeeping inside the
order objects is not observable by any claim and is not modelled. -/
def Trade.executeOrder (t : Trade) (ordId : String) (qty : Int) (price : GoFloat)
    (tm : Time) : Except String (Trade × Option Trade) :=
  if qty ≤ 0 then .error "Execution Qty is zero or less. "
  else if price.isNaN ∨ price.val ≤ 0 then
    .error "Price is NaN or less or equal to zero. "
  else
    match t.ConfirmedOrders.find? (fun p => p.1 = ordId) with
    | none => .error "Fill of order that is not in confirmed map"
    | some p =>
      if t.typ = ClosedTrade then .error "Fill of already closed trade"
      else
        let delta := p.2.side.sign * qty
        let curPos := t.typ.sign * t.Qty
        if curPos = 0 then
          .ok ({ t with
            typ := if 0 < delta then LongTrade else ShortTrade,
            Qty := qty, OpenPrice := price.val,
            Fills := t.Fills ++ [⟨price.val, qty, tm⟩] }, none)
        else if (0 < curPos ∧ 0 < delta) ∨ (curPos < 0 ∧ delta < 0) then
          .ok ({ t with
            Qty := t.Qty + qty,
            OpenPrice := (t.OpenPrice * t.Qty + price.val * qty) / (t.Qty + qty),
            Fills := t.Fills ++ [⟨price.val, qty, tm⟩] }, none)
        else
          let closedQty := min qty t.Qty
          let realized := (price.val - t.OpenPrice) * closedQty * t.typ.sign
          if qty < t.Qty then
            .ok ({ t with
              Qty := t.Qty - qty, RealizedPnL := t.RealizedPnL + realized,
              Fills := t.Fills ++ [⟨price.val, qty, tm⟩] }, none)
          else
            let closed := { t with
              typ := ClosedTrade, Qty := 0,
              RealizedPnL := t.RealizedPnL + realized,
              Fills := t.Fills ++ [⟨price.val, closedQty, tm⟩] }
            let residual := qty - t.Qty
            let newTrade : Trade :=
              if residual = 0 then
                ⟨FlatTrade, 0, 0, 0, [], [], []⟩
              else
                ⟨if 0 < delta then LongTrade else ShortTrade, residual,
                  price.val, 0, [], [], [⟨price.val, residual, tm⟩]⟩
            .ok (closed, some newTrade)

/-- Mutable state of one `BasicStrategy` (channels, logger and mutex
are not embedded; events sent to the error, request and portfolio
channels are collected in lists). -/
structure StrategyState where
  currentTrade : Trade
  closedTrades : List Trade
  waitingConfirmation : List String
  waitingN : Int
  mostRecentTime : Time
  errorsOut : List String
  requestsOut : List Ev
  portfolioOut : List Trade
deriving DecidableEq

/-- `BasicStrategy.Position` (part_000 128-139). -/
def Position (s : StrategyState) : Int :=
  if s.currentTrade.typ = FlatTrade ∨ s.currentTrade.typ = ClosedTrade then 0
  else
    let pos := s.currentTrade.Qty
    if s.currentTrade.typ = ShortTrade then -pos else pos

/-- `BasicStrategy.CancelOrder` (part_000 188-226): validates the id,
requires the order to be confirmed, registers the pending token
`"$CAN$" + id`, and sends the cancel request.  Returns the new state
and the error, if any. -/
def CancelOrder (s : StrategyState) (ordID : String) : StrategyState × Option String :=
  if ordID = "" then (s, some "ErrOrderIdIncorrect")
  else if ¬(s.currentTrade.hasConfirmedOrderWithId ordID = true) then
    (s, some "ErrOrderNotFoundInConfirmedMap")
  else
    let cancelReq := Ev.OrderCancelRequestEvent ordID (s.mostRecentTime + 20000)
    let reqID := "$CAN$" ++ ordID
    if s.waitingConfirmation.contains reqID then
      (s, some "Request is already waiting for conf. ")
    else
      ({ s with
        waitingConfirmation := reqID :: s.waitingConfirmation,
        waitingN := s.waitingN + 1,
        requestsOut := s.requestsOut ++ [cancelReq] }, none)

/-- `BasicStrategy.ReplaceOrder` (part_000 228-266), token
`"$REP$" + id`. -/
def ReplaceOrder (s : StrategyState) (ordID : String) (newPrice : GoFloat) :
    StrategyState × Option String :=
  if ordID = "" then (s, some "ErrOrderIdIncorrect")
  else if ¬(s.currentTrade.hasConfirmedOrderWithId ordID = true) then
    (s, some "ErrOrderNotFoundInConfirmedMap")
  else
    let replaceReq := Ev.OrderReplaceRequestEvent ordID newPrice
      (s.mostRecentTime + 20000)
    let reqID := "$REP$" ++ ordID
    if s.waitingConfirmation.contains reqID then
      (s, some "Request is already waiting for conf. ")
    else
      ({ s with
        waitingConfirmation := reqID :: s.waitingConfirmation,
        waitingN := s.waitingN + 1,
        requestsOut := s.requestsOut ++ [replaceReq] }, none)

/-- `mostRecentTime` update shared by all handlers: the clock never
regresses. -/
def bumpTime (s : StrategyState) (t : Time) : StrategyState :=
  if s.mostRecentTime < t then { s with mostRecentTime := t } else s

/-- `BasicStrategy.onOrderCancelHandler` (part_000 585-603): note that
it deletes the token `"&CAN&" + id`, not the `"$CAN$" + id` token that
`CancelOrder` registered. -/
def onOrderCancelHandler (s : StrategyState) (ordId : String) (tm : Time) :
    StrategyState :=
  let s := bumpTime s tm
  let s := { s with
    waitingN := s.waitingN - 1,
    waitingConfirmation := s.waitingConfirmation.erase ("&CAN&" ++ ordId) }
  match s.currentTrade.cancelOrder ordId with
  | .error e => { s with errorsOut := s.errorsOut ++ [e] }
  | .ok t => { s with currentTrade := t }

/-- `BasicStrategy.onOrderCancelRejectHandler` (part_000 614-625):
deletes the token `"&CAN&" + id`. -/
def onOrderCancelRejectHandler (s : StrategyState) (ordId : String) (tm : Time) :
    StrategyState :=
  let s := bumpTime s tm
  { s with
    waitingN := s.waitingN - 1,
    waitingConfirmation := s.waitingConfirmation.erase ("&CAN&" ++ ordId) }

/-- `BasicStrategy.onOrderFillHandler` (part_000 539-583).  The symbol
mismatch check is omitted: the embedding is per-instrument and every
fill carries the strategy's own symbol.  Note that the quantity and
price checks surface errors but do not return; protection of the trade
state is delegated to `Trade.executeOrder`. -/
def onOrderFillHandler (s : StrategyState) (ordId : String) (qty : Int)
    (price : GoFloat) (tm : Time) : StrategyState :=
  let s := bumpTime s tm
  let s := if qty ≤ 0 then
    { s with errorsOut := s.errorsOut ++ ["Execution Qty is zero or less. "] }
  else s
  let s := if price.isNaN ∨ price.val ≤ 0 then
    { s with errorsOut := s.errorsOut ++ ["Price is NaN or less or equal to zero. "] }
  else s
  let prevState := s.currentTrade.typ
  match s.currentTrade.executeOrder ordId qty price tm with
  | .error e => { s with errorsOut := s.errorsOut ++ [e] }
  | .ok (t, newPos) =>
    let s := { s with currentTrade := t }
    match newPos with
    | some np =>
      if ¬(s.currentTrade.typ = ClosedTrade) then
        { s with errorsOut :=
            s.errorsOut ++ ["New position opened, but previous is not closed. "] }
      else
        { s with
          closedTrades := s.closedTrades ++ [s.currentTrade],
          currentTrade := np,
          portfolioOut := s.portfolioOut ++ [np] }
    | none =>
      if prevState = FlatTrade then
        { s with portfolioOut := s.portfolioOut ++ [s.currentTrade] }
      else s

/-! ### History backfill (part_000 403-446 and 498-537) -/

/-- Keep the last `n` elements (`xs[len(xs)-n:]` when `len(xs) > n`). -/
def keepLast {α : Type} (n : Nat) (l : List α) : List α :=
  if n < l.length then l.drop (l.length - n) else l

/-- The candle-validity-and-deduplication pass of
`onCandleHistoryHandler` (part_000 418-431): walk the merged list,
keeping each valid candle whose exact `Datetime` has not been listed
yet (`listedCandleTimes`).  The accumulator is the set of listed
datetimes. -/
def dedupCandles : List Candle → List Time → List Candle
  | [], _ => []
  | c :: cs, listed =>
    if c.isValid && !listed.contains c.Datetime then
      c :: dedupCandles cs (c.Datetime :: listed)
    else dedupCandles cs listed

/-- `BasicStrategy.onCandleHistoryHandler` (part_000 403-446) acting on
the candle window: merge the history batch into the window,
de-duplicate by exact datetime, stable-sort by `Datetime.Unix()`, and
keep the last `nPeriods` candles.  An empty batch leaves the window
untouched. -/
def onCandleHistory (window : List Candle) (batch : List Candle) (nPeriods : Nat) :
    List Candle :=
  if batch.isEmpty then window
  else
    let checked := dedupCandles (window ++ batch) []
    let sorted := List.insertionSort (secLe Candle.Datetime) checked
    keepLast nPeriods sorted

/-- `BasicStrategy.onTickHistoryHandler` (part_000 498-537) acting on
the tick window: merge the history batch into the window, drop invalid
ticks (duplicates are admitted), stable-sort by `Datetime.Unix()`, and
keep the last `nPeriods` ticks.  An empty batch leaves the window
untouched. -/
def onTickHistory (window : List Tick) (batch : List Tick) (nPeriods : Nat) :
    List Tick :=
  if batch.isEmpty then window
  else
    let checked := (window ++ batch).filter Tick.IsValid
    let sorted := List.insertionSort (secLe Tick.Datetime) checked
    keepLast nPeriods sorted

/-! ### Concrete instances used to evaluate the claims -/

/-- A cancel request submitted at 1 s (in ns). -/
def c2req : Ev := .OrderCancelRequestEvent "A" 1000000000

/-- A request whose visibility time falls before the arrival below. -/
def c2reqA : Ev := .OrderCancelRequestEvent "A" 100000000

/-- A request whose visibility time falls after the arrival below. -/
def c2reqB : Ev := .OrderCancelRequestEvent "B" 3000000000

/-- A broker worker with 500 ms latency holding the two requests. -/
def c2w : WorkerState := ⟨500, false, [], [], [c2reqA, c2reqB]⟩

/-- A confirmed limit order known to the strategy runtime. -/
def c4ord : Order :=
  ⟨"ORD1", OrderSide.OrderBuy, 1, GoFloat.num 100, LimitOrder, GTCTIF, 0, ⟨⟨0, 0⟩⟩⟩

/-- A long trade holding the confirmed order `ORD1`. -/
def c4trade : Trade := ⟨LongTrade, 1, 100, 0, [("ORD1", c4ord)], [], []⟩

/-- Strategy-runtime state before the cancel round trip. -/
def c4s0 : StrategyState := ⟨c4trade, [], [], 0, 0, [], [], []⟩

/-- A Day-TIF limit order submitted 1 ns into day 0; midnight of the
following day is at 86400000000000 ns. -/
def c5ord : Order :=
  ⟨"D1", OrderSide.OrderBuy, 1, GoFloat.num 100, LimitOrder, DayTIF, 1, ⟨⟨0, 0⟩⟩⟩

/-- The broker-side wrapper of `c5ord`, confirmed shortly after
submission. -/
def c5bo : SimBrokerOrder := ⟨c5ord, ConfirmedOrder, 5, 0, GoFloat.num 100⟩

/-- A trade tick arriving on day 1, past the Day-TIF expiry. -/
def c5tick : Tick :=
  ⟨100000000000000, GoFloat.num 100, 1, GoFloat.num 0, GoFloat.num 0, 0, 0,
    true, false, false, false⟩

/-- A worker with 100 ms latency and permissive limit handling. -/
def c5w : WorkerState := ⟨100, false, [], [], []⟩

/-- A confirmed buy limit order at 100 with 10 lots open. -/
def c6bo : SimBrokerOrder :=
  ⟨⟨"L1", OrderSide.OrderBuy, 10, GoFloat.num 100, LimitOrder, GTCTIF, 0, ⟨⟨0, 0⟩⟩⟩,
    ConfirmedOrder, 5, 0, GoFloat.num 100⟩

/-- A trade tick below the limit price (last 99, size 20). -/
def c6tick : Tick :=
  ⟨2000000000, GoFloat.num 99, 20, GoFloat.num 0, GoFloat.num 0, 0, 0,
    true, false, false, false⟩

/-- A broker-generated event half a second into second 1. -/
def c7e1 : Ev := .OrderCancelEvent "A" 1500000000

/-- A broker-generated event earlier in the same second. -/
def c7e2 : Ev := .OrderCancelEvent "B" 1200000000

/-- A valid trade tick used for the history-load runs. -/
def c9tick : Tick :=
  ⟨0, GoFloat.num 100, 1, GoFloat.num 0, GoFloat.num 0, 0, 0,
    true, false, false, false⟩

/-- A valid candle used for the history-load runs. -/
def c9candle : Candle := ⟨0, GoFloat.num 10, GoFloat.num 12, GoFloat.num 9, GoFloat.num 11⟩

/-! ### Helper lemmas -/

theorem lookupOrd_insertOrd (os : List (String × SimBrokerOrder)) (id : String)
    (o : SimBrokerOrder) : lookupOrd (insertOrd os id o) id = some o := by
  simp [lookupOrd, insertOrd]

theorem position_only_reads_current_trade {s s' : StrategyState}
    (h : s'.currentTrade = s.currentTrade) : Position s' = Position s := by
  simp [Position, h]

/-! ### C10 -/

/-- C10: `Position` returns 0 when the current trade is Flat or Closed,
the held quantity when it is Long, and the negated held quantity when
it is Short. -/
theorem position_by_trade_type (s : StrategyState) :
    Position s =
      (match s.currentTrade.typ with
       | FlatTrade => 0
       | ClosedTrade => 0
       | LongTrade => s.currentTrade.Qty
       | ShortTrade => -s.currentTrade.Qty) := by
  cases h : s.currentTrade.typ <;> simp [Position, h]

/-! ### C1 -/

/-- C1: `simBrokerWorker.onNewOrder` always succeeds and appends exactly
one response to the pending buffer, timestamped at the request time plus
the round-trip latency (2 × delay ms): a confirmation when the order is
valid and its id is fresh, and a rejection otherwise. -/
theorem onNewOrder_roundtrip_latency (w : WorkerState) (ord : Order) (evTime : Time) :
    ∃ w' e, w.onNewOrder ord evTime = .ok w' ∧
      w'.generatedEvents = w.generatedEvents ++ [e] ∧
      e.getTime = evTime + w.delay * 2 * nsPerMs ∧
      (if (ord.isValid && (lookupOrd w.orders ord.Id).isNone) = true then
        e = .OrderConfirmationEvent ord.Id (evTime + w.delay * 2 * nsPerMs)
      else ∃ r, e = .OrderRejectedEvent ord.Id r (evTime + w.delay * 2 * nsPerMs)) := by
  by_cases hv : ord.isValid = true
  · cases hl : lookupOrd w.orders ord.Id with
    | some o =>
      obtain ⟨w2, hrun, hgen⟩ : ∃ w2, w.onNewOrder ord evTime = .ok w2 ∧
          w2.generatedEvents = w.generatedEvents ++
            [Ev.OrderRejectedEvent ord.Id
              "Sim Broker: can't confirm order. Order with this ID already exists on broker side"
              (w.genTimeRoundTrip evTime)] := by
        simp [WorkerState.onNewOrder, WorkerState.addBrokerEvent, hv, hl]
      refine ⟨w2, _, hrun, hgen, ?_, ?_⟩ <;>
        simp [Ev.getTime, WorkerState.genTimeRoundTrip, hl]
    | none =>
      obtain ⟨w2, hrun, hgen⟩ : ∃ w2, w.onNewOrder ord evTime = .ok w2 ∧
          w2.generatedEvents = w.generatedEvents ++
            [Ev.OrderConfirmationEvent ord.Id (w.genTimeRoundTrip evTime)] := by
        simp [WorkerState.onNewOrder, WorkerState.addBrokerEvent, hv, hl,
          lookupOrd_insertOrd]
      refine ⟨w2, _, hrun, hgen, ?_, ?_⟩ <;>
        simp [Ev.getTime, WorkerState.genTimeRoundTrip, hv, hl]
  · obtain ⟨w2, hrun, hgen⟩ : ∃ w2, w.onNewOrder ord evTime = .ok w2 ∧
        w2.generatedEvents = w.generatedEvents ++
          [Ev.OrderRejectedEvent ord.Id
            "Sim Broker: can't confirm order. Order is not valid"
            (w.genTimeRoundTrip evTime)] := by
      simp [WorkerState.onNewOrder, WorkerState.addBrokerEvent, hv,
        lookupOrd_insertOrd]
    simp [Bool.not_eq_true] at hv
    refine ⟨w2, _, hrun, hgen, ?_, ?_⟩ <;>
      simp [Ev.getTime, WorkerState.genTimeRoundTrip, hv]

/-! ### C5 -/

/-- C5: an active Day-TIF order whose state predates the tick, on a
tick arrival strictly past midnight of the day after its submission,
produces exactly one event — an `OrderCancelEvent` timestamped exactly
at that midnight — and is not examined for executions on that arrival. -/
theorem day_tif_expiry_cancel (w : WorkerState) (o : SimBrokerOrder) (tick : Tick)
    (htif : o.order.Tif = DayTIF)
    (hact : o.isActive = true)
    (hupd : o.StateUpdTime < tick.Datetime)
    (hpast : (Int.fdiv o.order.Time nsPerDay + 1) * nsPerDay < tick.Datetime) :
    w.tickOrderEvents o tick =
      [.OrderCancelEvent o.order.Id ((Int.fdiv o.order.Time nsPerDay + 1) * nsPerDay)] := by
  have hexp : o.getExpirationTime = (Int.fdiv o.order.Time nsPerDay + 1) * nsPerDay := by
    simp [SimBrokerOrder.getExpirationTime, htif]
  simp [WorkerState.tickOrderEvents, hact, hupd, cancelByTif,
    SimBrokerOrder.isExpired, hexp, hpast]

/-- C5 witness: the Day-TIF order `c5bo` (submitted 1 ns into day 0) is
canceled on the day-1 tick with timestamp exactly midnight of day 1. -/
theorem day_tif_expiry_cancel_witness :
    c5w.tickOrderEvents c5bo c5tick = [.OrderCancelEvent "D1" 86400000000000] := by
  have h := day_tif_expiry_cancel c5w c5bo c5tick (by decide) (by decide)
    (by decide) (by decide)
  simpa using h

/-! ### C2 -/

/-- C2 (amended): on a market-data arrival at time `T` the worker
dispatches exactly the buffered requests whose visibility time
(submission + single-trip latency) is strictly before `T` — in
non-decreasing submission-time order at whole-second (`Unix()`)
granularity — and every request whose visibility time is greater than
or equal to `T` remains buffered for a later arrival. -/
theorem proceedStoredRequests_visibility (w : WorkerState) (T : Time) :
    (∀ e ∈ (w.proceedStoredRequests T).1, w.genTimeSingleTrip e.getTime < T) ∧
    (∀ e ∈ (w.proceedStoredRequests T).2, T ≤ w.genTimeSingleTrip e.getTime) ∧
    (∀ e ∈ w.requestEvents, w.genTimeSingleTrip e.getTime < T →
      e ∈ (w.proceedStoredRequests T).1) ∧
    (∀ e ∈ w.requestEvents, T ≤ w.genTimeSingleTrip e.getTime →
      e ∈ (w.proceedStoredRequests T).2) ∧
    List.Sorted (secLe Ev.getTime) (w.proceedStoredRequests T).1 := by
  by_cases hemp : w.requestEvents.isEmpty = true
  · have h0 : w.requestEvents = [] := by
      cases h : w.requestEvents
      · rfl
      · rw [h] at hemp; simp at hemp
    simp [WorkerState.proceedStoredRequests, hemp, h0]
  · have hps : w.proceedStoredRequests T =
        ((List.insertionSort (secLe Ev.getTime) w.requestEvents).filter
          (fun e => decide (w.genTimeSingleTrip e.getTime < T)),
         (List.insertionSort (secLe Ev.getTime) w.requestEvents).filter
          (fun e => !decide (w.genTimeSingleTrip e.getTime < T))) := by
      simp [WorkerState.proceedStoredRequests, hemp, sortEvents]
    rw [hps]
    refine ⟨?_, ?_, ?_, ?_, ?_⟩
    · intro e he
      have h2 := (List.mem_filter.mp he).2
      simpa using h2
    · intro e he
      have h2 := (List.mem_filter.mp he).2
      simp only [Bool.not_eq_true', decide_eq_false_iff_not] at h2
      exact not_lt.mp h2
    · intro e he hvis
      refine List.mem_filter.mpr ⟨?_, by simpa using hvis⟩
      exact (List.mem_insertionSort (secLe Ev.getTime)).mpr he
    · intro e he hvis
      refine List.mem_filter.mpr ⟨?_, ?_⟩
      · exact (List.mem_insertionSort (secLe Ev.getTime)).mpr he
      · simp only [Bool.not_eq_true', decide_eq_false_iff_not]
        exact not_lt.mpr hvis
    · exact (List.sorted_insertionSort (secLe Ev.getTime) _).filter _

/-- C2 witness: with 500 ms latency and arrival time 2 s, the request
submitted at 0.1 s (visible at 0.6 s) is dispatched while the request
submitted at 3 s (visible at 3.5 s) stays buffered. -/
theorem proceedStoredRequests_visibility_witness :
    c2reqA ∈ (c2w.proceedStoredRequests 2000000000).1 ∧
    c2reqB ∈ (c2w.proceedStoredRequests 2000000000).2 := by
  have h := proceedStoredRequests_visibility c2w 2000000000
  exact ⟨h.2.2.1 c2reqA (by decide) (by decide),
    h.2.2.2.1 c2reqB (by decide) (by decide)⟩

/-- C2 counterexample: a request submitted at 1 s with 500 ms latency
has visibility time exactly 1.5 s; on a market-data arrival at exactly
1.5 s it is NOT processed (the code uses a strict `Before` comparison)
and stays buffered, refuting the claim that all requests with
visibility time ≤ T are processed. -/
theorem proceedStoredRequests_boundary_counterexample :
    (⟨500, false, [], [], [c2req]⟩ : WorkerState).genTimeSingleTrip c2req.getTime
        = 1500000000 ∧
    (⟨500, false, [], [], [c2req]⟩ : WorkerState).proceedStoredRequests 1500000000
        = ([], [c2req]) := by decide

/-! ### C7 -/

/-- C7 (amended): when a market-data event at time `T` reaches the
worker, every pending broker-generated event with timestamp ≤ T is
released (before anything with timestamp > T, which all remain
buffered), and the released sequence is non-decreasing in
whole-second (`Unix()`) timestamps; sub-second ordering within one
second is not restored by the sort. -/
theorem drainEvents_release_order (pending : List Ev) (T : Time) :
    (∀ e ∈ (drainEvents pending T).1, e.getTime ≤ T) ∧
    (∀ e ∈ (drainEvents pending T).2, T < e.getTime) ∧
    (∀ e ∈ pending, e.getTime ≤ T → e ∈ (drainEvents pending T).1) ∧
    (∀ e ∈ pending, T < e.getTime → e ∈ (drainEvents pending T).2) ∧
    List.Sorted (secLe Ev.getTime) (drainEvents pending T).1 := by
  have hps : drainEvents pending T =
      ((List.insertionSort (secLe Ev.getTime) pending).filter
        (fun e => !decide (T < e.getTime)),
       (List.insertionSort (secLe Ev.getTime) pending).filter
        (fun e => decide (T < e.getTime))) := by
    simp [drainEvents, sortEvents]
  rw [hps]
  refine ⟨?_, ?_, ?_, ?_, ?_⟩
  · intro e he
    have h2 := (List.mem_filter.mp he).2
    simp only [Bool.not_eq_true', decide_eq_false_iff_not] at h2
    exact not_lt.mp h2
  · intro e he
    have h2 := (List.mem_filter.mp he).2
    simpa using h2
  · intro e he hle
    refine List.mem_filter.mpr ⟨?_, ?_⟩
    · exact (List.mem_insertionSort (secLe Ev.getTime)).mpr he
    · simp only [Bool.not_eq_true', decide_eq_false_iff_not]
      exact not_lt.mpr hle
  · intro e he hgt
    refine List.mem_filter.mpr ⟨?_, by simpa using hgt⟩
    exact (List.mem_insertionSort (secLe Ev.getTime)).mpr he
  · exact (List.sorted_insertionSort (secLe Ev.getTime) _).filter _

/-- C7 witness: a pending event at 1.5 s is released on an arrival at
2 s. -/
theorem drainEvents_release_order_witness :
    c7e1 ∈ (drainEvents [c7e1] 2000000000).1 := by
  exact (drainEvents_release_order [c7e1] 2000000000).2.2.1 c7e1 (by decide) (by decide)

/-- C7 counterexample: two pending events inside the same Unix second
(1.5 s buffered before 1.2 s) are both released on an arrival at 2 s in
buffer order, so the delivered sequence 1.5 s, 1.2 s is decreasing in
sub-second timestamps — the stable sort compares `Unix()` seconds only,
refuting "non-decreasing ... including sub-second ordering". -/
theorem drainEvents_subsecond_counterexample :
    (drainEvents [c7e1, c7e2] 2000000000).1 = [c7e1, c7e2] ∧
    c7e1.getTime = 1500000000 ∧ c7e2.getTime = 1200000000 ∧
    ¬(c7e1.getTime ≤ c7e2.getTime) := by decide

/-! ### C3 -/

theorem executeOrder_invalid_error (t : Trade) (ordId : String) (qty : Int)
    (price : GoFloat) (tm : Time)
    (h : qty ≤ 0 ∨ price.isNaN = true ∨ price.val ≤ 0) :
    ∃ msg, t.executeOrder ordId qty price tm = .error msg := by
  unfold Trade.executeOrder
  by_cases h1 : qty ≤ 0
  · simp [h1]
  · have h2 : price.isNaN = true ∨ price.val ≤ 0 := by
      rcases h with h | h | h
      · exact absurd h h1
      · exact Or.inl h
      · exact Or.inr h
    simp [h1, h2]

/-- C3: an `OrderFillEvent` with non-positive quantity, or with NaN or
non-positive price, makes the fill handler surface an error on the
error channel and leaves every piece of trade state — the current
trade, the closed-trades list, and the position — unchanged. -/
theorem fill_error_no_mutation (s : StrategyState) (ordId : String) (qty : Int)
    (price : GoFloat) (tm : Time)
    (h : qty ≤ 0 ∨ price.isNaN = true ∨ price.val ≤ 0) :
    (onOrderFillHandler s ordId qty price tm).currentTrade = s.currentTrade ∧
    (onOrderFillHandler s ordId qty price tm).closedTrades = s.closedTrades ∧
    Position (onOrderFillHandler s ordId qty price tm) = Position s ∧
    s.errorsOut.length < (onOrderFillHandler s ordId qty price tm).errorsOut.length := by
  obtain ⟨msg, hexec⟩ := executeOrder_invalid_error s.currentTrade ordId qty price tm h
  unfold onOrderFillHandler bumpTime
  split_ifs <;> simp_all [Position, List.length_append]

/-- C3 witness: a zero-quantity fill against a live strategy state
mutates nothing and surfaces an error. -/
theorem fill_error_no_mutation_witness :
    (onOrderFillHandler c4s0 "ORD1" 0 (GoFloat.num 100) 7).currentTrade
        = c4s0.currentTrade ∧
    (onOrderFillHandler c4s0 "ORD1" 0 (GoFloat.num 100) 7).closedTrades
        = c4s0.closedTrades ∧
    Position (onOrderFillHandler c4s0 "ORD1" 0 (GoFloat.num 100) 7) = Position c4s0 ∧
    c4s0.errorsOut.length
      < (onOrderFillHandler c4s0 "ORD1" 0 (GoFloat.num 100) 7).errorsOut.length :=
  fill_error_no_mutation c4s0 "ORD1" 0 (GoFloat.num 100) 7 (Or.inl le_rfl)

/-! ### C4 -/

/-- C4: the failing round trip evaluated on the code.  `CancelOrder`
registers the pending token `"$CAN$ORD1"`; the broker's cancel response
(`onOrderCancelHandler`) deletes the differently-prefixed key
`"&CAN&ORD1"`, so the registered token survives the response; and after
a cancel-reject response (`onOrderCancelRejectHandler`, which leaves
the order confirmed) a second `CancelOrder` for the same id is refused
with "Request is already waiting for conf." — the token is never
removed and a new request is not accepted again, contradicting the
claim. -/
theorem cancel_token_never_removed :
    (CancelOrder c4s0 "ORD1").2 = none ∧
    ((CancelOrder c4s0 "ORD1").1).waitingConfirmation = ["$CAN$ORD1"] ∧
    (onOrderCancelHandler (CancelOrder c4s0 "ORD1").1 "ORD1" 10).waitingConfirmation
      = ["$CAN$ORD1"] ∧
    (CancelOrder (onOrderCancelRejectHandler (CancelOrder c4s0 "ORD1").1 "ORD1" 10)
        "ORD1").2 = some "Request is already waiting for conf. " := by
  decide

/-! ### C6 -/

/-- C6: tick-mode limit execution against a trade tick, for an
executable order (valid, active, positive leaves quantity): a Buy fills
at the working limit price exactly when last < limit, or when
last == limit with strict-limit off, with quantity
min(leaves, tick last size); symmetrically a Sell fills exactly when
last > limit, or when last == limit with strict-limit off; in every
other case (including last == limit under strict-limit) nothing fills. -/
theorem fillOnTickLimit_cases (w : WorkerState) (o : SimBrokerOrder) (tick : Tick)
    (htr : tick.HasTrade = true)
    (hv : validateOrderForExecution o LimitOrder = none) :
    w.fillOnTickLimit o tick =
      (match o.order.side with
       | OrderBuy =>
         if tick.LastPrice.flt o.BrokerPrice = true ∨
            (tick.LastPrice.feq o.BrokerPrice = true ∧
              ¬(w.strictLimitOrders = true)) then
           some (.OrderFillEvent o.order.Id o.BrokerPrice
             (min (o.order.Qty - o.BrokerExecQty) tick.LastSize)
             (w.genTimeRoundTrip tick.Datetime))
         else none
       | OrderSell =>
         if o.BrokerPrice.flt tick.LastPrice = true ∨
            (tick.LastPrice.feq o.BrokerPrice = true ∧
              ¬(w.strictLimitOrders = true)) then
           some (.OrderFillEvent o.order.Id o.BrokerPrice
             (min (o.order.Qty - o.BrokerExecQty) tick.LastSize)
             (w.genTimeRoundTrip tick.Datetime))
         else none) := by
  have hmin : (if tick.LastSize < o.order.Qty - o.BrokerExecQty then tick.LastSize
      else o.order.Qty - o.BrokerExecQty)
      = min (o.order.Qty - o.BrokerExecQty) tick.LastSize := by
    rcases lt_or_ge tick.LastSize (o.order.Qty - o.BrokerExecQty) with hlt | hge
    · rw [if_pos hlt, min_eq_right (le_of_lt hlt)]
    · rw [if_neg (not_lt.mpr hge), min_eq_left hge]
  unfold WorkerState.fillOnTickLimit
  cases hside : o.order.side <;>
    simp only [htr, hv, Option.isSome_none, Bool.false_eq_true, not_true,
      not_false_iff, if_false, if_true, hside, hmin] <;>
    split_ifs <;> simp_all [hmin]

/-- C6 witness: under strict-limit handling, a Buy Limit at 100 with 10
lots open, against a trade tick (last 99, size 20), fills 10 lots at
the limit price 100, timestamped at the tick time plus the round
trip. -/
theorem fillOnTickLimit_cases_witness :
    (⟨100, true, [], [], []⟩ : WorkerState).fillOnTickLimit c6bo c6tick =
      some (.OrderFillEvent "L1" (GoFloat.num 100) 10 2200000000) := by
  have h := fillOnTickLimit_cases ⟨100, true, [], [], []⟩ c6bo c6tick
    (by decide) (by decide)
  rw [h]
  decide

/-! ### C8 -/

/-- C8 (amended): a confirmation, cancel, or fill event that refers to
an order id unknown to the worker makes `addBrokerEvent` panic (the
`.error` outcome), aborting the run; it is not surfaced as a non-fatal
error, and the event is not simply dropped with processing
continuing. -/
theorem addBrokerEvent_unknown_id_panics (w : WorkerState) (id : String)
    (p : GoFloat) (q : Int) (t : Time)
    (h : lookupOrd w.orders id = none) :
    w.addBrokerEvent (.OrderConfirmationEvent id t) =
      .error "Confirmation of not existing order" ∧
    w.addBrokerEvent (.OrderCancelEvent id t) =
      .error "Can't find order in confirmed map to cancel it. " ∧
    w.addBrokerEvent (.OrderFillEvent id p q t) =
      .error "Can't find order in confirmed map to fill it. " := by
  refine ⟨?_, ?_, ?_⟩ <;> simp [WorkerState.addBrokerEvent, h]

/-- C8 witness for the amended claim: on a worker with no orders, a
confirmation for the unknown id `X` panics. -/
theorem addBrokerEvent_unknown_id_panics_witness :
    (⟨100, false, [], [], []⟩ : WorkerState).addBrokerEvent
        (.OrderConfirmationEvent "X" 0) =
      .error "Confirmation of not existing order" :=
  (addBrokerEvent_unknown_id_panics ⟨100, false, [], [], []⟩ "X"
    (GoFloat.num 1) 1 0 rfl).1

/-- C8 counterexample to the original claim: a cancel event for an id
unknown to the worker does not come back as a surfaced, non-fatal error
with processing continuing (which would be a `.ok` state here) — it is
the panic `.error`, which aborts the run. -/
theorem addBrokerEvent_unknown_id_counterexample :
    (⟨100, false, [], [], []⟩ : WorkerState).addBrokerEvent
        (.OrderCancelEvent "Y" 0) =
      .error "Can't find order in confirmed map to cancel it. " := rfl

/-! ### C9 -/

theorem contains_time_of_mem {x : Time} {l : List Time} (h : x ∈ l) :
    l.contains x = true := by simpa using h

theorem dedupCandles_append_good :
    ∀ (A B : List Candle) (seen : List Time),
      (∀ c ∈ A, c.isValid = true) →
      (A.map Candle.Datetime).Nodup →
      (∀ c ∈ A, c.Datetime ∉ seen) →
      dedupCandles (A ++ B) seen =
        A ++ dedupCandles B ((A.map Candle.Datetime).reverse ++ seen)
  | [], B, seen, _, _, _ => by simp
  | a :: A, B, seen, hval, hnd, hdisj => by
    have ha : a.isValid = true := hval a (List.mem_cons_self a A)
    have hnotseen : a.Datetime ∉ seen := hdisj a (List.mem_cons_self a A)
    have hcont : seen.contains a.Datetime = false := by simpa using hnotseen
    have hnd' : (A.map Candle.Datetime).Nodup := by
      simpa using hnd.of_cons
    have hhead : a.Datetime ∉ A.map Candle.Datetime := by
      have := hnd
      simp only [List.map_cons, List.nodup_cons] at this
      exact this.1
    have ih := dedupCandles_append_good A B (a.Datetime :: seen)
      (fun c hc => hval c (List.mem_cons_of_mem a hc)) hnd'
      (by
        intro c hc
        simp only [List.mem_cons]
        rintro (h | h)
        · exact hhead (h ▸ List.mem_map_of_mem Candle.Datetime hc)
        · exact hdisj c (List.mem_cons_of_mem a hc) h)
    simp only [List.cons_append, List.append_eq, dedupCandles, ha, hcont,
      Bool.not_false, Bool.and_self, if_pos]
    rw [ih]
    simp [List.map_cons, List.reverse_cons, List.append_assoc]

theorem dedupCandles_nil_of_covered :
    ∀ (B : List Candle) (seen : List Time),
      (∀ c ∈ B, c.isValid = true → c.Datetime ∈ seen) →
      dedupCandles B seen = []
  | [], _, _ => rfl
  | b :: B, seen, hcov => by
    have hcond : (b.isValid && !seen.contains b.Datetime) = false := by
      by_cases hb : b.isValid = true
      · simp only [hb, Bool.true_and, Bool.not_eq_false']
        exact contains_time_of_mem (hcov b (List.mem_cons_self b B) hb)
      · simp [Bool.not_eq_true] at hb
        simp [hb]
    simp only [dedupCandles, hcond, Bool.false_eq_true, if_false]
    exact dedupCandles_nil_of_covered B seen
      (fun c hc => hcov c (List.mem_cons_of_mem b hc))

theorem dedupCandles_valid :
    ∀ (l : List Candle) (seen : List Time) (c : Candle),
      c ∈ dedupCandles l seen → c.isValid = true
  | [], _, _, h => by simp [dedupCandles] at h
  | a :: l, seen, c, h => by
    by_cases hcond : (a.isValid && !seen.contains a.Datetime) = true
    · rw [dedupCandles, if_pos hcond] at h
      rcases List.mem_cons.mp h with h | h
      · subst h
        obtain ⟨h1, h2⟩ : c.isValid = true ∧ c.Datetime ∉ seen := by
          simpa using hcond
        exact h1
      · exact dedupCandles_valid l (a.Datetime :: seen) c h
    · rw [dedupCandles, if_neg hcond] at h
      exact dedupCandles_valid l seen c h

theorem dedupCandles_nodup_dts :
    ∀ (l : List Candle) (seen : List Time),
      ((dedupCandles l seen).map Candle.Datetime).Nodup ∧
      (∀ x ∈ (dedupCandles l seen).map Candle.Datetime, x ∉ seen)
  | [], _ => by simp [dedupCandles]
  | a :: l, seen => by
    by_cases hcond : (a.isValid && !seen.contains a.Datetime) = true
    · rw [dedupCandles, if_pos hcond]
      obtain ⟨hav, hnotseen⟩ : a.isValid = true ∧ a.Datetime ∉ seen := by
        simpa using hcond
      obtain ⟨ihnd, ihdisj⟩ := dedupCandles_nodup_dts l (a.Datetime :: seen)
      constructor
      · simp only [List.map_cons, List.nodup_cons]
        refine ⟨?_, ihnd⟩
        intro hmem
        exact ihdisj a.Datetime hmem (List.mem_cons_self _ _)
      · intro x hx
        simp only [List.map_cons, List.mem_cons] at hx
        rcases hx with hx | hx
        · exact hx ▸ hnotseen
        · intro hxs
          exact ihdisj x hx (List.mem_cons_of_mem _ hxs)
    · rw [dedupCandles, if_neg hcond]
      exact dedupCandles_nodup_dts l seen

theorem dedupCandles_covers :
    ∀ (l : List Candle) (seen : List Time) (c : Candle),
      c ∈ l → c.isValid = true →
      c.Datetime ∈ seen ∨ c.Datetime ∈ (dedupCandles l seen).map Candle.Datetime
  | [], _, _, hc, _ => absurd hc (List.not_mem_nil _)
  | a :: l, seen, c, hc, hcv => by
    by_cases hcond : (a.isValid && !seen.contains a.Datetime) = true
    · rw [dedupCandles, if_pos hcond]
      rcases List.mem_cons.mp hc with hce | hce
      · subst hce
        exact Or.inr (by simp)
      · rcases dedupCandles_covers l (a.Datetime :: seen) c hce hcv with h | h
        · rcases List.mem_cons.mp h with h | h
          · exact Or.inr (by simp [h])
          · exact Or.inl h
        · exact Or.inr (by simp only [List.map_cons, List.mem_cons]; exact Or.inr h)
    · rw [dedupCandles, if_neg hcond]
      rcases List.mem_cons.mp hc with hce | hce
      · subst hce
        have h2 := hcond
        simp [hcv] at h2
        exact Or.inl h2
      · exact dedupCandles_covers l seen c hce hcv

/-- C9 (amended): candle-history loading is idempotent whenever the
merged, de-duplicated candle list fits within the window bound `N` (no
truncation): delivering the same `CandlesHistoryEvent` twice leaves the
candle window exactly as delivering it once.  (Tick-history loading
admits duplicates and is not idempotent — see the counterexample.) -/
theorem candleHistory_load_idempotent (W H : List Candle) (N : Nat)
    (hfit : (dedupCandles (W ++ H) []).length ≤ N) :
    onCandleHistory (onCandleHistory W H N) H N = onCandleHistory W H N := by
  by_cases hB : H.isEmpty = true
  · have h0 : H = [] := by
      cases h : H
      · rfl
      · rw [h] at hB; simp at hB
    simp [onCandleHistory, hB]
  · have hBf : H.isEmpty = false := by
      simpa using hB
    set C := dedupCandles (W ++ H) [] with hC
    set W1 := List.insertionSort (secLe Candle.Datetime) C with hW1
    have hlen : W1.length = C.length := List.length_insertionSort _ _
    have hlenN : W1.length ≤ N := by rw [hlen]; exact hfit
    have hfirst : onCandleHistory W H N = W1 := by
      simp only [onCandleHistory, hBf, Bool.false_eq_true, if_false, ← hC, ← hW1,
        keepLast]
      rw [if_neg (not_lt.mpr hlenN)]
    have hperm : W1.Perm C := List.perm_insertionSort _ _
    have hvalW1 : ∀ c ∈ W1, c.isValid = true := fun c hc =>
      dedupCandles_valid (W ++ H) [] c (hperm.subset hc)
    have hndW1 : (W1.map Candle.Datetime).Nodup :=
      ((hperm.map Candle.Datetime).nodup_iff).mpr (dedupCandles_nodup_dts (W ++ H) []).1
    have hcov : ∀ c ∈ H, c.isValid = true → c.Datetime ∈ W1.map Candle.Datetime := by
      intro c hc hcv
      rcases dedupCandles_covers (W ++ H) [] c (List.mem_append_right W hc) hcv with
        h | h
      · simp at h
      · exact ((hperm.map Candle.Datetime).mem_iff).mpr h
    have hded : dedupCandles (W1 ++ H) [] = W1 := by
      rw [dedupCandles_append_good W1 H [] hvalW1 hndW1 (by simp)]
      rw [dedupCandles_nil_of_covered H _ (by
        intro c hc hcv
        simpa using hcov c hc hcv)]
      simp
    have hsorted : List.Sorted (secLe Candle.Datetime) W1 :=
      List.sorted_insertionSort _ _
    rw [hfirst]
    simp only [onCandleHistory, hBf, Bool.false_eq_true, if_false, hded,
      hsorted.insertionSort_eq, keepLast]
    rw [if_neg (not_lt.mpr hlenN)]

/-- C9 witness: loading a one-candle history twice into an empty window
of bound 3 equals loading it once. -/
theorem candleHistory_load_idempotent_witness :
    onCandleHistory (onCandleHistory [] [c9candle] 3) [c9candle] 3
      = onCandleHistory [] [c9candle] 3 :=
  candleHistory_load_idempotent [] [c9candle] 3 (by decide)

/-- C9 counterexample: tick-history loading admits duplicate
timestamps, so delivering the same one-tick `TickHistoryEvent` twice
leaves the window `[tick, tick]`, different from the `[tick]` produced
by a single delivery — history loading is not idempotent as claimed. -/
theorem tickHistory_not_idempotent :
    onTickHistory (onTickHistory [] [c9tick] 5) [c9tick] 5 = [c9tick, c9tick] ∧
    onTickHistory [] [c9tick] 5 = [c9tick] ∧
    ([c9tick, c9tick] : List Tick) ≠ [c9tick] := by decide

end Engine
